import Mathlib

/-!
Verification development for the `tailscale-local-api` repository.

The repository is a TypeScript client for the Tailscale daemon's LocalAPI.
This file gives a shallow embedding, in Lean, of the repository's core logic:

* `src/util.ts` — the word tokenizer (`words`), the key camel-caser
  (`toCamelCase`) and the recursive JSON key normalizer (`toCamelCaseKeys`);
* `src/index.ts` (the main class file) — environment interrogation,
  credential discovery, client construction, the request-dispatch function,
  the connection retry schedule, the address-range classifier
  (`isInTailscaleIpRange`) and per-endpoint request routing.

JS strings are modelled as `String` (a list of Unicode code points); the
claims settled here only involve characters of the Basic Multilingual Plane,
for which the per-code-point view agrees with the UTF-16 code-unit view used
by JavaScript except where noted.  JS numbers that matter here (`delta`
comparisons, the backoff delays 5000·1.5^n) are modelled as `ℚ`; every such
value is an exact dyadic rational, so IEEE doubles compute them exactly.
-/

namespace TailscaleLocalApi

/-! ## §1  `src/util.ts` — word tokenizer and camelCase normalizer -/

/-- The `WHITESPACE` constant of `util.ts`: the fixed list of whitespace
code points recognised as word separators (and, coincidentally, the JS
whitespace set used by `String.trim` / `parseInt`). -/
def whitespaceChars : List Char :=
  ['\t', '\n', Char.ofNat 0xB, Char.ofNat 0xC, '\r', ' ',
   Char.ofNat 0x85, Char.ofNat 0xA0, Char.ofNat 0x1680,
   Char.ofNat 0x2000, Char.ofNat 0x2001, Char.ofNat 0x2002,
   Char.ofNat 0x2003, Char.ofNat 0x2004, Char.ofNat 0x2005,
   Char.ofNat 0x2006, Char.ofNat 0x2007, Char.ofNat 0x2008,
   Char.ofNat 0x2009, Char.ofNat 0x200A, Char.ofNat 0x2028,
   Char.ofNat 0x2029, Char.ofNat 0x202F, Char.ofNat 0x205F,
   Char.ofNat 0x3000, Char.ofNat 0xFEFF]

/-- The `WORD_SEPARATORS` set of `util.ts`: hyphen, underscore and the
whitespace characters. -/
def wordSeparators : List Char := '-' :: '_' :: whitespaceChars

/-- The regex character class `[a-z]` (with the `/u` flag it is still the
ASCII range). -/
def isAsciiLower (c : Char) : Bool := 'a' ≤ c && c ≤ 'z'

/-- The regex character class `[A-Z]`. -/
def isAsciiUpper (c : Char) : Bool := 'A' ≤ c && c ≤ 'Z'

/-- The regex character class `\d` (ASCII digits). -/
def isDigitChar (c : Char) : Bool := '0' ≤ c && c ≤ '9'

/-- `/[a-z]$/u.test(word)`: the buffer ends in an ASCII lowercase letter. -/
def lastIsLower (w : List Char) : Bool :=
  match w.getLast? with
  | some c => isAsciiLower c
  | none => false

/-- `/[A-Z][A-Z]$/u.test(word)`: the buffer's last two characters are both
ASCII uppercase letters. -/
def lastTwoUpper (w : List Char) : Bool :=
  match w.reverse with
  | a :: b :: _ => isAsciiUpper a && isAsciiUpper b
  | _ => false

/-- `/\d$/u.test(word)`: the buffer ends in an ASCII digit. -/
def lastIsDigit (w : List Char) : Bool :=
  match w.getLast? with
  | some c => isDigitChar c
  | none => false

/-- The `flush` closure of `words`: push the buffer onto the results if it
is non-empty (the buffer itself is reset by the caller). -/
def flushList (results : List String) (w : List Char) : List String :=
  if w.isEmpty then results else results ++ [String.mk w]

/-- One iteration of the `for (const character of data)` loop body of
`words` in `util.ts`, acting on the `(results, word-buffer)` state. -/
def wordsStep (st : List String × List Char) (c : Char) : List String × List Char :=
  let results := st.1
  let w := st.2
  if wordSeparators.contains c then
    (flushList results w, [])
  else if lastIsLower w && isAsciiUpper c then
    (flushList results w, [c])
  else if lastTwoUpper w && isAsciiLower c then
    -- `word.slice(-1)` / `word.slice(0,-1)`: the buffer minus its last
    -- character is flushed and the last character seeds the new buffer.
    (flushList results w.dropLast, (w.getLast?.elim [] fun l => [l]) ++ [c])
  else if lastIsDigit w != isDigitChar c then
    (flushList results w, [c])
  else
    (results, w ++ [c])

/-- `words` from `util.ts`: fold the loop body over the characters, then
flush the remaining buffer. -/
def words (data : String) : List String :=
  let st := data.toList.foldl wordsStep ([], [])
  flushList st.1 st.2

/-- JS `String.prototype.toLowerCase`, per code point, modelled for code
points below `U+0100` (ASCII and Latin-1; every character appearing in the
theorems of this file is in that range).  Other code points are returned
unchanged. -/
def jsToLowerChar (c : Char) : Char :=
  if isAsciiUpper c then Char.ofNat (c.toNat + 32)
  else if 0xC0 ≤ c.toNat && c.toNat ≤ 0xDE && c.toNat != 0xD7 then
    Char.ofNat (c.toNat + 32)
  else c

/-- JS `String.prototype.toUpperCase` of a single character, modelled for
code points below `U+0100`.  The result is a *string*: `"ß".toUpperCase()`
is the two-character string `"SS"` (Unicode SpecialCasing), and
`"ÿ".toUpperCase()` is `"Ÿ" (U+0178)`. -/
def jsToUpperChar (c : Char) : List Char :=
  if isAsciiLower c then [Char.ofNat (c.toNat - 32)]
  else if c.toNat = 0xDF then ['S', 'S']
  else if 0xE0 ≤ c.toNat && c.toNat ≤ 0xFE && c.toNat != 0xF7 then
    [Char.ofNat (c.toNat - 32)]
  else if c.toNat = 0xFF then [Char.ofNat 0x178]
  else [c]

/-- JS `data.toLowerCase()` on a whole string. -/
def jsToLower (s : String) : String := String.mk (s.toList.map jsToLowerChar)

/-- `LOWER_CASE_CHARACTER_RE.test(data)` from `util.ts`: `/[a-z]/u`. -/
def hasAsciiLower (s : String) : Bool := s.toList.any isAsciiLower

/-- One mapped word in `toCamelCase`'s join: the first character is
lowercased (first word) or uppercased (subsequent words), the rest of the
word is kept — `(index === 0 ? word[0]?.toLowerCase() :
word[0]?.toUpperCase()) ?? "" + word.slice(1)`. -/
def camelWord (first : Bool) (w : String) : String :=
  match w.toList with
  | [] => ""
  | c :: rest =>
    if first then String.mk (jsToLowerChar c :: rest)
    else String.mk (jsToUpperChar c ++ rest)

/-- `toCamelCase` from `util.ts`: lowercase the whole key when it contains
no ASCII lowercase letter, tokenize, then re-join with the first word
uncapitalized and the rest capitalized. -/
def toCamelCase (data : String) : String :=
  let ws := words (if hasAsciiLower data then data else jsToLower data)
  match ws with
  | [] => ""
  | w :: rest =>
    camelWord true w ++ String.join (rest.map (camelWord false))

/-- A JSON value, the data the normalizer `toCamelCaseKeys` walks: scalars
(`null`, booleans, numbers, strings), arrays, and objects.  A JS object is
modelled as its insertion-ordered list of key/value entries, which is what
`Object.entries` iterates. -/
inductive Json where
  | null : Json
  | bool (b : Bool) : Json
  | num (q : ℚ) : Json
  | str (s : String) : Json
  | arr (elems : List Json) : Json
  | obj (fields : List (String × Json)) : Json

/-- The JS assignment `result[camelKey] = value` on an insertion-ordered
object: overwriting an existing key keeps its original position, a new key
is appended. -/
def insertKey (fields : List (String × Json)) (k : String) (v : Json) :
    List (String × Json) :=
  match fields with
  | [] => [(k, v)]
  | (k0, v0) :: rest =>
    if k0 = k then (k0, v) :: rest else (k0, v0) :: insertKey rest k v

mutual

/-- `toCamelCaseKeys` from `util.ts`: arrays are mapped element-wise,
objects are rebuilt entry by entry with camel-cased keys and recursively
normalized values, scalars pass through. -/
def toCamelCaseKeys : Json → Json
  | .null => .null
  | .bool b => .bool b
  | .num q => .num q
  | .str s => .str s
  | .arr xs => .arr (normArr xs)
  | .obj fs => .obj (normObj fs [])

/-- The `data.map(item => toCamelCaseKeys(item))` arm of `toCamelCaseKeys`. -/
def normArr : List Json → List Json
  | [] => []
  | x :: xs => toCamelCaseKeys x :: normArr xs

/-- The `for (const [key, value] of Object.entries(data))` loop of
`toCamelCaseKeys`, with `result` as the accumulator. -/
def normObj : List (String × Json) → List (String × Json) → List (String × Json)
  | [], result => result
  | (k, v) :: rest, result =>
    normObj rest (insertKey result (toCamelCase k) (toCamelCaseKeys v))

end

/-- A key whose camel-casing is a fixed point of a second camel-casing. -/
def keyStable (k : String) : Bool :=
  toCamelCase (toCamelCase k) == toCamelCase k

mutual

/-- Every object key in the JSON tree is `keyStable`. -/
def keysStable : Json → Bool
  | .null => true
  | .bool _ => true
  | .num _ => true
  | .str _ => true
  | .arr xs => keysStableArr xs
  | .obj fs => keysStableObj fs

/-- `keysStable` on every element of an array. -/
def keysStableArr : List Json → Bool
  | [] => true
  | x :: xs => keysStable x && keysStableArr xs

/-- `keyStable` on every key and `keysStable` on every value of an object. -/
def keysStableObj : List (String × Json) → Bool
  | [] => true
  | (k, v) :: rest => keyStable k && keysStable v && keysStableObj rest

end

/-! ## §2  The client class file — environment, credentials, construction,
request dispatch, retry schedule, address-range classifier -/

/-- JS `String.prototype.trim` / `parseInt` whitespace: the `WhiteSpace`
and `LineTerminator` character sets of ECMA-262.  This is `whitespaceChars`
without `U+0085` (NEL), which is a word separator in `util.ts` but not JS
whitespace. -/
def jsTrimChars : List Char := whitespaceChars.erase (Char.ofNat 0x85)

/-- JS `s.trim()`. -/
def jsTrim (s : String) : String :=
  String.mk
    (((s.toList.dropWhile (jsTrimChars.contains ·)).reverse.dropWhile
      (jsTrimChars.contains ·)).reverse)

/-- Numeric value of an ASCII digit. -/
def digitVal (c : Char) : Nat := c.toNat - '0'.toNat

/-- The maximal leading run of ASCII digits, as a number; `none` when there
is no digit. -/
def parseDigits (cs : List Char) : Option Nat :=
  let ds := cs.takeWhile isDigitChar
  if ds.isEmpty then none
  else some (ds.foldl (fun acc c => 10 * acc + digitVal c) 0)

/-- JS `parseInt(s, 10)`: skip leading whitespace, optional sign, then the
maximal run of decimal digits; `NaN` (here `none`) when no digit follows.
Trailing garbage is ignored, as in JS. -/
def parseInt10 (s : String) : Option Int :=
  match s.toList.dropWhile (jsTrimChars.contains ·) with
  | '-' :: rest => (parseDigits rest).map (fun n => -(n : Int))
  | '+' :: rest => (parseDigits rest).map (fun n => (n : Int))
  | cs => (parseDigits cs).map (fun n => (n : Int))

/-- `pat` occurs as a contiguous substring of the character list. -/
def substringAux (pat : List Char) : List Char → Bool
  | [] => pat.isEmpty
  | c :: rest => pat.isPrefixOf (c :: rest) || substringAux pat rest

/-- JS `s.includes(pat)`. -/
def hasSubstring (s pat : String) : Bool := substringAux pat.toList s.toList

/-- The ambient machine state the constructor interrogates: the platform
string (`process.platform`), the container indicators, and the macOS
credential files.  `ipnportLink` is the target text of the symlink
`/Library/Tailscale/ipnport` (`none` when `readlinkSync` throws);
`sameuserproofFile p` is the content of
`/Library/Tailscale/sameuserproof-<p>` (`none` when `readFileSync`
throws); `cgroupContent` is the content of `/proc/1/cgroup`. -/
structure Env where
  platform : String
  dockerenvExists : Bool
  kubernetesServiceHost : Option String
  cgroupContent : Option String
  ipnportLink : Option String
  sameuserproofFile : String → Option String

/-- `isRunningInContainer` from the class file: `/.dockerenv` present, or a
truthy `KUBERNETES_SERVICE_HOST` (the empty string is falsy in JS), or — on
Linux only — `/proc/1/cgroup` mentioning `docker`, `kubepods` or `lxc`
(read errors ignored). -/
def isRunningInContainer (e : Env) : Bool :=
  if e.dockerenvExists then true
  else if (match e.kubernetesServiceHost with
           | some s => !s.isEmpty
           | none => false) then true
  else if e.platform == "linux" then
    match e.cgroupContent with
    | some c => hasSubstring c "docker" || hasSubstring c "kubepods" || hasSubstring c "lxc"
    | none => false
  else false

/-- `interrogateEnvironment`: the container check runs first, so any
container indicator wins over the platform. -/
def interrogateEnvironment (e : Env) : String :=
  if isRunningInContainer e then "container"
  else if e.platform == "win32" then "windows"
  else if e.platform == "darwin" then "macos"
  else "unix"

/-- `getCredentialsFromSameuserProof`: read the `ipnport` symlink target,
`parseInt` it, read and trim the `sameuserproof-<port>` sibling file.  Any
failure is rethrown as a `Failed to read credentials: ...` error (for the
filesystem errors the embedded message text stands in for the
environment-specific `err.message`). -/
def getCredentialsFromSameuserProof (e : Env) : Except String (Int × String) :=
  match e.ipnportLink with
  | none => .error "Failed to read credentials: readlink error"
  | some portStr =>
    match parseInt10 portStr with
    | none => .error ("Failed to read credentials: Invalid port number: " ++ portStr)
    | some port =>
      match e.sameuserproofFile portStr with
      | none => .error "Failed to read credentials: readFile error"
      | some authBytes =>
        let auth := jsTrim authBytes
        if auth.isEmpty then
          .error "Failed to read credentials: Empty auth token in sameuserproof file"
        else .ok (port, auth)

/-- The `TailscaleLocalApiOptions` constructor argument. -/
structure TailscaleLocalApiOptions where
  socketPath : Option String := none
  useSocketOnly : Option Bool := none

/-- The instance fields of the class that survive construction (the
request function itself is derived from them by `createFetchFn`). -/
structure ClientState where
  useSocketOnly : Bool
  environment : String
  socketPath : String
  adapterPort : Option Int
  adapterPassword : Option String

/-- The constructor body up to `createFetchFn`: defaults, environment
interrogation, socket-path choice, and — whenever the environment is
`macos` — credential discovery, whose failure aborts construction.
`Except.error` is the constructor throwing. -/
def construct (e : Env) (options : TailscaleLocalApiOptions) :
    Except String ClientState :=
  let useSocketOnly := options.useSocketOnly.getD false
  let environment := interrogateEnvironment e
  let socketPath := options.socketPath.getD
    (if environment == "container" then "/tmp/tailscaled.sock"
     else "/var/run/tailscaled.socket")
  if environment == "macos" then
    match getCredentialsFromSameuserProof e with
    | .error msg => .error msg
    | .ok (port, auth) =>
      .ok { useSocketOnly, environment, socketPath,
            adapterPort := some port, adapterPassword := some auth }
  else
    .ok { useSocketOnly, environment, socketPath,
          adapterPort := none, adapterPassword := none }

/-- UTF-8 encoding of one code point (what `Buffer.from(string)` does). -/
def utf8BytesChar (c : Char) : List Nat :=
  let n := c.toNat
  if n < 0x80 then [n]
  else if n < 0x800 then [0xC0 + n / 64, 0x80 + n % 64]
  else if n < 0x10000 then [0xE0 + n / 4096, 0x80 + (n / 64) % 64, 0x80 + n % 64]
  else [0xF0 + n / 262144, 0x80 + (n / 4096) % 64, 0x80 + (n / 64) % 64,
        0x80 + n % 64]

/-- UTF-8 bytes of a string. -/
def utf8Bytes (s : String) : List Nat := (s.toList.map utf8BytesChar).flatten

/-- The base64 alphabet. -/
def base64Alphabet : List Char :=
  "ABCDEFGHIJKLMNOPQRSTUVWXYZabcdefghijklmnopqrstuvwxyz0123456789+/".toList

/-- The base64 digit for a 6-bit value. -/
def base64Char (n : Nat) : Char := base64Alphabet.getD n 'A'

/-- RFC 4648 base64, three input bytes to four output characters, `=`
padding. -/
def base64Chunks : List Nat → List Char
  | b1 :: b2 :: b3 :: rest =>
    base64Char (b1 / 4) :: base64Char ((b1 % 4) * 16 + b2 / 16) ::
      base64Char ((b2 % 16) * 4 + b3 / 64) :: base64Char (b3 % 64) ::
      base64Chunks rest
  | [b1, b2] =>
    [base64Char (b1 / 4), base64Char ((b1 % 4) * 16 + b2 / 16),
     base64Char ((b2 % 16) * 4), '=']
  | [b1] => [base64Char (b1 / 4), base64Char ((b1 % 4) * 16), '=', '=']
  | [] => []

/-- `Buffer.from(s).toString("base64")`. -/
def base64Encode (s : String) : String := String.mk (base64Chunks (utf8Bytes s))

/-- The dispatch function built by `createFetchFn`, by transport: either
the Unix-domain-socket `Agent` with the virtual base URL, or localhost TCP
with the precomputed `Basic` authorization value. -/
inductive Dispatcher where
  | unixSocket (socketPath baseUrl : String)
  | localhostTcp (baseUrl authorizationValue : String)

/-- A JS template-literal interpolation of a possibly-`undefined` number. -/
def numOrUndefined : Option Int → String
  | some p => toString p
  | none => "undefined"

/-- A JS template-literal interpolation of a possibly-`undefined` string. -/
def strOrUndefined : Option String → String
  | some s => s
  | none => "undefined"

/-- `createFetchFn`: socket-only or non-macOS environments get the Unix
socket dispatcher; otherwise the base URL becomes
`http://127.0.0.1:<adapterPort>` and every request will carry
`Basic base64(":" + adapterPassword)`. -/
def createFetchFn (s : ClientState) : Dispatcher :=
  if s.useSocketOnly || s.environment != "macos" then
    .unixSocket s.socketPath "http://local-tailscaled.sock"
  else
    .localhostTcp ("http://127.0.0.1:" ++ numOrUndefined s.adapterPort)
      ("Basic " ++ base64Encode (":" ++ strOrUndefined s.adapterPassword))

/-- One HTTP request as handed to undici `fetch`: the URL, the Unix socket
the connection is dispatched over (if any), and the header list.  In the
header list a later entry overrides an earlier one with the same name,
mirroring the object literal `{ Authorization: ..., Host: ...,
...headers }`. -/
structure Request where
  url : String
  unixSocket : Option String
  method : String
  headers : List (String × String)

/-- The request either arm of `createFetchFn` issues for a call
`fetchFn(path, { method, headers, ... })`. -/
def dispatchRequest (d : Dispatcher) (path method : String)
    (headers : List (String × String)) : Request :=
  match d with
  | .unixSocket sp base =>
    { url := base ++ path, unixSocket := some sp, method, headers }
  | .localhostTcp base auth =>
    { url := base ++ path, unixSocket := none, method,
      headers := ("Authorization", auth) :: ("Host", "local-tailscaled.sock")
        :: headers }

/-- The public API methods of the class that issue an HTTP request. -/
inductive ApiMethod where
  | whoIs
  | prefs
  | goroutines
  | daemonMetrics
  | userMetrics
  | incrementCounter
  | status
  | statusWithoutPeers
  | waitingFiles
  | awaitWaitingFiles
  | deleteWaitingFile
  | getWaitingFile
  | fileTargets
  | pushFile
  | start
  | logout
  | startLoginInteractive
deriving DecidableEq

/-- Read off each method body: whether its HTTP call goes through
`this.fetch` (the dispatch function built at construction) or through the
imported global `fetch` against `this.baseUrl` with no dispatcher and no
auth headers.  `incrementCounter` and `getWaitingFile` are the two methods
that call the global `fetch`. -/
def usesDispatchFn : ApiMethod → Bool
  | .incrementCounter => false
  | .getWaitingFile => false
  | _ => true

/-- `this.maxRetries`. -/
def maxRetries : Nat := 5

/-- `this.retryDelay` (ms).  The backoff arithmetic
`this.retryDelay * Math.pow(1.5, retryCount)` is exact in IEEE doubles for
every `retryCount` reached here, so `ℚ` models it faithfully. -/
def retryDelay : ℚ := 5000

/-- What one `connectWithRetry` probe attempt does after its response is
known. -/
inductive ProbeStep where
  | ready
  | scheduleRetry (nextRetry : Nat) (delayMs : ℚ)
  | terminate

/-- The control flow of `connectWithRetry(retryCount)` once the probe's
outcome (`resp.ok`, with a network error counting as not ok) is known:
success logs and stops; failure either schedules
`connectWithRetry(retryCount + 1)` after `retryDelay * 1.5 ^ retryCount`
milliseconds, or — when the budget is exhausted — calls `exit(1)`. -/
def connectWithRetryStep (ok : Bool) (retryCount : Nat) : ProbeStep :=
  if ok then .ready
  else if retryCount < maxRetries then
    .scheduleRetry (retryCount + 1) (retryDelay * (3 / 2) ^ retryCount)
  else .terminate

/-- The body of one metric update sent by `incrementCounter`. -/
structure MetricUpdate where
  name : String
  type : String
  value : ℚ

/-- What `incrementCounter(name, delta)` does before awaiting the HTTP
response: throw, or issue the POST. -/
inductive CounterAction where
  | throwError (message : String)
  | request (url method contentType : String) (updates : List MetricUpdate)

/-- `incrementCounter` up to its `fetch` call: a negative delta throws
before any request is built; otherwise the single-element `updates` array
is POSTed to `/localapi/v0/upload-client-metrics`. -/
def incrementCounter (baseUrl name : String) (delta : ℚ) : CounterAction :=
  if delta < 0 then .throwError "negative delta not allowed"
  else
    .request (baseUrl ++ "/localapi/v0/upload-client-metrics") "POST"
      "application/json" [{ name, type := "counter", value := delta }]

/-- Split a character list on `'.'` (every dot is a boundary; empty pieces
are kept, so `"1..2"` gives three pieces and `""` gives one empty piece). -/
def splitOnDot : List Char → List (List Char)
  | [] => [[]]
  | c :: rest =>
    if c = '.' then [] :: splitOnDot rest
    else
      match splitOnDot rest with
      | h :: t => (c :: h) :: t
      | [] => [[c]]

/-- One octet of a dotted quad, per `inet_pton`(AF_INET) as implemented by
libuv (which Node's `SocketAddress` uses): decimal digits only, value at
most 255, and no leading zero (a digit following a leading `0` is
rejected). -/
def parseOctet (cs : List Char) : Option Nat :=
  if cs.isEmpty then none
  else if !cs.all isDigitChar then none
  else if cs.length > 1 && cs.headD '0' == '0' then none
  else
    let n := cs.foldl (fun acc c => 10 * acc + digitVal c) 0
    if n ≤ 255 then some n else none

/-- `inet_pton`(AF_INET): exactly four octets, as a 32-bit value. -/
def parseIPv4 (s : String) : Option Nat :=
  match (splitOnDot s.toList).mapM parseOctet with
  | some [a, b, c, d] => some (((a * 256 + b) * 256 + c) * 256 + d)
  | _ => none

/-- `addSubnet("100.64.0.0", 10, "ipv4")` (constructor): the IPv4 base as
a 32-bit value. -/
def tailscaleV4Base : Nat := ((100 * 256 + 64) * 256 + 0) * 256 + 0

/-- The IPv4 prefix length. -/
def tailscaleV4PrefixLen : Nat := 10

/-- `addSubnet("fd7a:115c:a1e0::", 48, "ipv6")` (constructor): the IPv6
base as a 128-bit value — hextets `fd7a`, `115c`, `a1e0` followed by
zeros. -/
def tailscaleV6Base : Nat :=
  0xfd7a * 2 ^ 112 + 0x115c * 2 ^ 96 + 0xa1e0 * 2 ^ 80

/-- The IPv6 prefix length. -/
def tailscaleV6PrefixLen : Nat := 48

/-- 32-bit prefix match against the IPv4 subnet. -/
def inSubnet4 (addr : Nat) : Bool :=
  addr / 2 ^ (32 - tailscaleV4PrefixLen) ==
    tailscaleV4Base / 2 ^ (32 - tailscaleV4PrefixLen)

/-- The IPv4-mapped-IPv6 image `::ffff:a.b.c.d` of a 32-bit value, used
for the cross-family comparison. -/
def v4Mapped (addr : Nat) : Nat := 0xffff * 2 ^ 32 + addr

/-- 128-bit prefix match against the IPv6 subnet. -/
def inSubnet6 (addr128 : Nat) : Bool :=
  addr128 / 2 ^ (128 - tailscaleV6PrefixLen) ==
    tailscaleV6Base / 2 ^ (128 - tailscaleV6PrefixLen)

/-- Node's `BlockList.check(address)` as the repository calls it — with the
`type` parameter left at its documented default `"ipv4"`.  Per Node's
implementation, the address string is wrapped in a
`SocketAddress { address, family: "ipv4" }`; when the string is not a valid
IPv4 dotted quad that constructor throws and `check` catches and returns
`false`.  A parsed IPv4 address is then tested against both rules added in
the constructor; against the IPv6 rule the comparison is via the
IPv4-mapped image, which for the non-mapped base `fd7a:115c:a1e0::/48` can
never match (Node likewise never matches an IPv4 address against an IPv6
network that is not an IPv4-mapped one). -/
def blockListCheckDefault (address : String) : Bool :=
  match parseIPv4 address with
  | none => false
  | some a => inSubnet4 a || inSubnet6 (v4Mapped a)

/-- Match `::ffff:` case-insensitively at the head of the list, returning
the remainder. -/
def mappedPrefixDrop : List Char → Option (List Char)
  | ':' :: ':' :: f1 :: f2 :: f3 :: f4 :: ':' :: rest =>
    if [f1, f2, f3, f4].all (fun c => c == 'f' || c == 'F') then some rest
    else none
  | _ => none

/-- `\d+\.\d+\.\d+\.\d+` matching the whole remainder: exactly four
non-empty digit runs separated by dots. -/
def quadPattern (cs : List Char) : Bool :=
  let parts := splitOnDot cs
  parts.length == 4 && parts.all (fun p => !p.isEmpty && p.all isDigitChar)

/-- The regex match `ip.match(/::ffff:(\d+\.\d+\.\d+\.\d+)$/i)`: scan the
start positions left to right; at each occurrence of `::ffff:` the captured
group must be a dotted quad reaching the end of the string. -/
def findMappedV4 : List Char → Option String
  | [] => none
  | c :: cs =>
    match mappedPrefixDrop (c :: cs) with
    | some rest =>
      if quadPattern rest then some (String.mk rest) else findMappedV4 cs
    | none => findMappedV4 cs

/-- `isInTailscaleIpRange` from the class file.  The JS function returns
`string | false`; `none` models the falsy `false` result. -/
def isInTailscaleIpRange (ip : String) : Option String :=
  match findMappedV4 ip.toList with
  | some quad => if blockListCheckDefault quad then some quad else none
  | none => if blockListCheckDefault ip then some ip else none

/-! ## §3  Auxiliary definitions and concrete fixtures -/

/-- The key list of an object entry list. -/
def fieldKeys (l : List (String × Json)) : List String := l.map Prod.fst

/-- Fixture: a macOS machine outside any container whose credential file
pair is present and well-formed (symlink target `"12345"`, sibling file
`"  deadbeef\n"`). -/
def macEnvWithCreds : Env where
  platform := "darwin"
  dockerenvExists := false
  kubernetesServiceHost := none
  cgroupContent := none
  ipnportLink := some "12345"
  sameuserproofFile := fun p => if p = "12345" then some "  deadbeef\n" else none

/-- Fixture: a macOS machine outside any container with no credential
files at all. -/
def macEnvNoCreds : Env where
  platform := "darwin"
  dockerenvExists := false
  kubernetesServiceHost := none
  cgroupContent := none
  ipnportLink := none
  sameuserproofFile := fun _ => none

/-- Fixture: a containerized host (Docker indicator present) whose
platform string is nevertheless `darwin`. -/
def darwinContainerEnv : Env where
  platform := "darwin"
  dockerenvExists := true
  kubernetesServiceHost := none
  cgroupContent := none
  ipnportLink := none
  sameuserproofFile := fun _ => none

/-- Fixture: a client state as produced by construction in macOS TCP
mode. -/
def tcpClientState : ClientState where
  useSocketOnly := false
  environment := "macos"
  socketPath := "/var/run/tailscaled.socket"
  adapterPort := some 12345
  adapterPassword := some "deadbeef"

end TailscaleLocalApi

namespace TailscaleLocalApi

/-! ## §4  Supporting lemmas -/

theorem insertKey_mem {l : List (String × Json)} {k : String} {v : Json}
    {e : String × Json} (h : e ∈ insertKey l k v) : e ∈ l ∨ e = (k, v) := by
  induction l with
  | nil => simpa [insertKey] using h
  | cons hd tl ih =>
    obtain ⟨k0, v0⟩ := hd
    simp only [insertKey] at h
    split at h
    · rcases List.mem_cons.1 h with h1 | h1
      · right; simp only [h1]; simp [*]
      · left; exact List.mem_cons_of_mem _ h1
    · rcases List.mem_cons.1 h with h1 | h1
      · left; simp [h1]
      · rcases ih h1 with h2 | h2
        · left; exact List.mem_cons_of_mem _ h2
        · right; exact h2

theorem fieldKeys_insertKey (l : List (String × Json)) (k : String) (v : Json) :
    fieldKeys (insertKey l k v) =
      if k ∈ fieldKeys l then fieldKeys l else fieldKeys l ++ [k] := by
  induction l with
  | nil => simp [insertKey, fieldKeys]
  | cons hd tl ih =>
    obtain ⟨k0, v0⟩ := hd
    by_cases hk : k0 = k
    · subst hk; simp [insertKey, fieldKeys]
    · have hne : ¬(k = k0) := fun h => hk h.symm
      simp only [insertKey, if_neg hk, fieldKeys, List.map_cons] at ih ⊢
      rw [ih]
      by_cases hm : k ∈ tl.map Prod.fst
      · rw [if_pos hm, if_pos (List.mem_cons.2 (.inr hm))]
      · rw [if_neg hm, if_neg (by simp [List.mem_cons, hne, hm]),
          List.cons_append]

theorem insertKey_nodup {l : List (String × Json)} (k : String) (v : Json)
    (h : (fieldKeys l).Nodup) : (fieldKeys (insertKey l k v)).Nodup := by
  rw [fieldKeys_insertKey]
  split
  · exact h
  · simpa [List.nodup_append] using ⟨h, by assumption⟩

theorem insertKey_of_not_mem {l : List (String × Json)} {k : String}
    (v : Json) (h : k ∉ fieldKeys l) : insertKey l k v = l ++ [(k, v)] := by
  induction l with
  | nil => simp [insertKey]
  | cons hd tl ih =>
    obtain ⟨k0, v0⟩ := hd
    simp only [fieldKeys, List.map_cons, List.mem_cons] at h
    push_neg at h
    have hne : ¬(k0 = k) := fun hh => h.1 hh.symm
    simp [insertKey, hne, ih h.2, fieldKeys]

theorem normObj_prov (fs : List (String × Json)) :
    ∀ acc : List (String × Json), (fieldKeys acc).Nodup →
      (fieldKeys (normObj fs acc)).Nodup ∧
        ∀ e ∈ normObj fs acc, e ∈ acc ∨
          ∃ kv ∈ fs, e = (toCamelCase kv.1, toCamelCaseKeys kv.2) := by
  induction fs with
  | nil =>
    intro acc hacc
    exact ⟨by simpa [normObj] using hacc, fun e he => .inl (by simpa [normObj] using he)⟩
  | cons hd tl ih =>
    obtain ⟨k, v⟩ := hd
    intro acc hacc
    have h1 := ih (insertKey acc (toCamelCase k) (toCamelCaseKeys v))
      (insertKey_nodup _ _ hacc)
    refine ⟨by simpa [normObj] using h1.1, ?_⟩
    intro e he
    rcases h1.2 e (by simpa [normObj] using he) with h2 | ⟨kv, hkv, hE⟩
    · rcases insertKey_mem h2 with h3 | h3
      · exact .inl h3
      · exact .inr ⟨(k, v), by simp, by simpa using h3⟩
    · exact .inr ⟨kv, by simp [hkv], hE⟩

theorem normObj_fixed_aux (l : List (String × Json)) :
    ∀ acc : List (String × Json), (fieldKeys l).Nodup →
      (∀ kv ∈ l, toCamelCase kv.1 = kv.1 ∧ toCamelCaseKeys kv.2 = kv.2) →
      (∀ s ∈ fieldKeys l, s ∉ fieldKeys acc) →
      normObj l acc = acc ++ l := by
  induction l with
  | nil => intro acc _ _ _; simp [normObj]
  | cons hd tl ih =>
    obtain ⟨k, v⟩ := hd
    intro acc hnd hfix hdisj
    simp only [fieldKeys, List.map_cons, List.nodup_cons] at hnd
    have hk : toCamelCase k = k := (hfix (k, v) (by simp)).1
    have hv : toCamelCaseKeys v = v := (hfix (k, v) (by simp)).2
    have hknotin : k ∉ fieldKeys acc := hdisj k (by simp [fieldKeys])
    have hdisj2 : ∀ s ∈ fieldKeys tl, s ∉ fieldKeys (acc ++ [(k, v)]) := by
      intro s hs
      have h1 : s ∉ fieldKeys acc := hdisj s (by
        simp only [fieldKeys, List.map_cons, List.mem_cons]
        exact Or.inr (by simpa [fieldKeys] using hs))
      have h2 : s ≠ k := fun hsk => hnd.1 (hsk ▸ (by simpa [fieldKeys] using hs))
      simp only [fieldKeys, List.map_append, List.mem_append, List.map_cons,
        List.map_nil, List.mem_singleton]
      rintro (hc | hc)
      · exact h1 (by simpa [fieldKeys] using hc)
      · exact h2 hc
    simp only [normObj, hk, hv, insertKey_of_not_mem _ hknotin]
    rw [ih (acc ++ [(k, v)]) hnd.2 (fun kv hkv => hfix kv (by simp [hkv])) hdisj2]
    simp

theorem normObj_fixed (l : List (String × Json)) (hnd : (fieldKeys l).Nodup)
    (hfix : ∀ kv ∈ l, toCamelCase kv.1 = kv.1 ∧ toCamelCaseKeys kv.2 = kv.2) :
    normObj l [] = l := by
  simpa using normObj_fixed_aux l [] hnd hfix (by simp [fieldKeys])

theorem keysStableObj_mem {fs : List (String × Json)}
    (h : keysStableObj fs = true) :
    ∀ kv ∈ fs, keyStable kv.1 = true ∧ keysStable kv.2 = true := by
  induction fs with
  | nil => simp
  | cons hd tl ih =>
    obtain ⟨k, v⟩ := hd
    simp only [keysStableObj, Bool.and_eq_true] at h
    intro kv hkv
    rcases List.mem_cons.1 hkv with h1 | h1
    · subst h1; exact ⟨h.1.1, h.1.2⟩
    · exact ih h.2 kv h1

theorem keysStableArr_mem {xs : List Json} (h : keysStableArr xs = true) :
    ∀ x ∈ xs, keysStable x = true := by
  induction xs with
  | nil => simp
  | cons hd tl ih =>
    simp only [keysStableArr, Bool.and_eq_true] at h
    intro x hx
    rcases List.mem_cons.1 hx with h1 | h1
    · subst h1; exact h.1
    · exact ih h.2 x h1

theorem normArr_idem_of (xs : List Json)
    (hpt : ∀ y ∈ xs, toCamelCaseKeys (toCamelCaseKeys y) = toCamelCaseKeys y) :
    normArr (normArr xs) = normArr xs := by
  induction xs with
  | nil => rfl
  | cons y ys ih =>
    simp only [normArr]
    exact congrArg₂ _ (hpt y (by simp)) (ih fun z hz => hpt z (by simp [hz]))

/-- Idempotence of `toCamelCaseKeys` on trees all of whose keys camel-case
stably; shared engine for the claim about normalizer idempotence. -/
theorem toCamelCaseKeys_idem : ∀ x : Json, keysStable x = true →
    toCamelCaseKeys (toCamelCaseKeys x) = toCamelCaseKeys x
  | .null, _ => rfl
  | .bool _, _ => rfl
  | .num _, _ => rfl
  | .str _, _ => rfl
  | .arr xs, h => by
    have hstable : keysStableArr xs = true := by simpa [keysStable] using h
    simp only [toCamelCaseKeys]
    exact congrArg Json.arr
      (normArr_idem_of xs fun y hy =>
        toCamelCaseKeys_idem y (keysStableArr_mem hstable y hy))
  | .obj fs, h => by
    have hstable : keysStableObj fs = true := by simpa [keysStable] using h
    have hmem := keysStableObj_mem hstable
    obtain ⟨hnd, hprov⟩ := normObj_prov fs [] (by simp [fieldKeys])
    simp only [toCamelCaseKeys]
    refine congrArg Json.obj (normObj_fixed _ hnd ?_)
    intro e he
    rcases hprov e he with h0 | ⟨kv, hkv, hE⟩
    · exact absurd h0 (List.not_mem_nil e)
    · obtain ⟨hks, hvs⟩ := hmem kv hkv
      subst hE
      exact ⟨by simpa [keyStable] using hks, toCamelCaseKeys_idem kv.2 hvs⟩
termination_by x => sizeOf x
decreasing_by
  · have := List.sizeOf_lt_of_mem hy
    simp only [Json.arr.sizeOf_spec]
    omega
  · have h1 := List.sizeOf_lt_of_mem hkv
    have h2 : sizeOf kv.2 < sizeOf kv := by
      obtain ⟨a, b⟩ := kv
      simp only [Prod.mk.sizeOf_spec]
      omega
    simp only [Json.obj.sizeOf_spec]
    omega

/-! ## §5  The claims -/

/-- C5: the claim states that the word tokenizer applied to `"HELLOWorld"`
returns exactly `["HELL", "OWorld"]`.  It does not: on the
uppercase-run-to-lowercase transition the code flushes the buffer *minus its
last character* (`"HELLO"`) and seeds the next word with that last character
(`"W"`), yielding `["HELLO", "World"]`. -/
theorem claimC5_counterexample : words "HELLOWorld" ≠ ["HELL", "OWorld"] := by
  decide

/-- C5 (amended): `words "HELLOWorld"` returns exactly the two segments
`["HELLO", "World"]`. -/
theorem claimC5_amended : words "HELLOWorld" = ["HELLO", "World"] := by decide

/-- C6: the claim states `normalizeKeys` is idempotent on every JSON value.
It is not: for the object `{"1aB": null}` one application camel-cases the
key to `"1AB"`, but a second application sees a key with no ASCII lowercase
letter, lowercases it wholesale to `"1ab"`, and re-joins it as `"1Ab"`. -/
theorem claimC6_counterexample :
    toCamelCaseKeys (toCamelCaseKeys (Json.obj [("1aB", Json.null)])) ≠
      toCamelCaseKeys (Json.obj [("1aB", Json.null)]) := by
  have h1 : toCamelCaseKeys (Json.obj [("1aB", Json.null)]) =
      Json.obj [("1AB", Json.null)] := rfl
  have h2 : toCamelCaseKeys (Json.obj [("1AB", Json.null)]) =
      Json.obj [("1Ab", Json.null)] := rfl
  rw [h1, h2]
  simp

/-- C6 (amended): `normalizeKeys` (`toCamelCaseKeys`) is idempotent on every
JSON value all of whose object keys, recursively, camel-case stably — i.e.
`toCamelCase (toCamelCase k) = toCamelCase k` for each key `k`.  Ordinary
wire keys (`user_id`, `PeerAPIURL`, already-camel keys, ...) satisfy this;
full idempotence fails (see the counterexample). -/
theorem claimC6_amended (x : Json) (h : keysStable x = true) :
    toCamelCaseKeys (toCamelCaseKeys x) = toCamelCaseKeys x :=
  toCamelCaseKeys_idem x h

/-- C6 witness: a concrete stable tree on which the amended idempotence
theorem applies. -/
theorem claimC6_witness :
    keysStable (Json.obj [("user_id", Json.arr [Json.str "a"]),
      ("PeerAPIURL", Json.null)]) = true ∧
    toCamelCaseKeys (toCamelCaseKeys (Json.obj [("user_id",
      Json.arr [Json.str "a"]), ("PeerAPIURL", Json.null)])) =
      toCamelCaseKeys (Json.obj [("user_id", Json.arr [Json.str "a"]),
        ("PeerAPIURL", Json.null)]) :=
  ⟨rfl, claimC6_amended _ rfl⟩

/-- C10: the tokenizer's case-transition rules recognise only ASCII
letters.  First conjunct: a character that is neither an ASCII letter nor a
separator can only trigger the digit-boundary rule — never a case
transition.  The concrete conjuncts: `'É'` after a lowercase letter and
`'é'` after an uppercase run produce no split, and a key with no ASCII
lowercase letter (here `"éX"`, which does contain the non-ASCII lowercase
`'é'`) is lowercased wholesale by `toCamelCase`. -/
theorem claimC10 :
    (∀ (results : List String) (w : List Char) (c : Char),
        isAsciiUpper c = false → isAsciiLower c = false →
        wordSeparators.contains c = false →
        wordsStep (results, w) c =
          if lastIsDigit w != isDigitChar c then (flushList results w, [c])
          else (results, w ++ [c])) ∧
    words "aÉb" = ["aÉb"] ∧
    words "ABé" = ["ABé"] ∧
    toCamelCase "éX" = "éx" := by
  refine ⟨?_, by decide, by decide, by decide⟩
  intro results w c h1 h2 h3
  have h3' : c ∉ wordSeparators := by simpa using h3
  simp [wordsStep, h1, h2, h3']

/-- C10 witness: the non-ASCII uppercase letter `'É'` arriving after the
uppercase run `"AB"` is simply appended — no word boundary. -/
theorem claimC10_witness :
    wordsStep ([], ['A', 'B']) 'É' = ([], ['A', 'B', 'É']) := by
  rw [claimC10.1 [] ['A', 'B'] 'É' (by decide) (by decide) (by decide)]
  decide

/-- C1: the claim states `adapterPort`/`adapterPassword` are populated iff
the environment is macos *and* `useSocketOnly` is false, and that forcing
socket-only mode skips credential discovery.  Both parts fail: the
constructor runs credential discovery whenever the environment is macos,
ignoring `useSocketOnly`.  On a macOS host with valid credential files and
`useSocketOnly: true` the credentials are populated anyway (refuting the
iff), and on a macOS host with no credential files the same socket-only
construction aborts with a discovery error. -/
theorem claimC1_counterexample :
    (∃ s, construct macEnvWithCreds { useSocketOnly := some true } =
        Except.ok s ∧
      ¬((s.adapterPort.isSome = true ∧ s.adapterPassword.isSome = true) ↔
        (s.environment = "macos" ∧ s.useSocketOnly = false))) ∧
    construct macEnvNoCreds { useSocketOnly := some true } =
      Except.error "Failed to read credentials: readlink error" := by
  refine ⟨⟨_, rfl, ?_⟩, rfl⟩
  decide

/-- C1 (amended): whenever construction succeeds, `adapterPort` and
`adapterPassword` are populated iff the environment is macos — regardless
of `useSocketOnly`; and whenever the environment is macos and credential
discovery fails, construction aborts with that discovery error (again
regardless of `useSocketOnly`). -/
theorem claimC1_amended (e : Env) (options : TailscaleLocalApiOptions) :
    (∀ s, construct e options = Except.ok s →
      ((s.adapterPort.isSome = true ∧ s.adapterPassword.isSome = true) ↔
        s.environment = "macos")) ∧
    (interrogateEnvironment e = "macos" →
      ∀ msg, getCredentialsFromSameuserProof e = Except.error msg →
        construct e options = Except.error msg) := by
  constructor
  · intro s hs
    by_cases henv : interrogateEnvironment e = "macos"
    · simp only [construct, henv] at hs
      rcases hcred : getCredentialsFromSameuserProof e with msg | ⟨port, auth⟩
      · rw [hcred] at hs; simp at hs
      · rw [hcred] at hs
        simp at hs
        subst hs
        simp
    · simp only [construct] at hs
      rw [if_neg (by simpa using henv)] at hs
      simp only [Except.ok.injEq] at hs
      subst hs
      simpa using henv
  · intro henv msg hcred
    simp [construct, henv, hcred]

/-- C1 witness: a macOS environment with missing credential files makes
construction abort with the discovery error. -/
theorem claimC1_witness :
    construct macEnvNoCreds {} =
      Except.error "Failed to read credentials: readlink error" :=
  (claimC1_amended macEnvNoCreds {}).2 rfl
    "Failed to read credentials: readlink error" rfl

/-- C2: the claim states every API call issues its request through the
dispatch function built at construction.  It does not: `incrementCounter`
and `getWaitingFile` call the imported global `fetch` against
`this.baseUrl` directly, bypassing the dispatcher (and with it the Basic
auth / Host headers of macOS TCP mode and the Unix-socket agent of socket
mode). -/
theorem claimC2_counterexample :
    usesDispatchFn ApiMethod.incrementCounter = false ∧
    usesDispatchFn ApiMethod.getWaitingFile = false :=
  ⟨rfl, rfl⟩

/-- C2 (amended): every API method except `incrementCounter` and
`getWaitingFile` issues its request through the dispatch function; requests
that do go through the dispatcher carry, in macOS TCP mode, the
`Basic base64(":" + adapterPassword)` authorization and virtual
`local-tailscaled.sock` Host headers, and in socket mode are dispatched
over the configured Unix socket with only the caller's headers. -/
theorem claimC2_amended :
    (∀ m : ApiMethod, usesDispatchFn m =
        (!(m == ApiMethod.incrementCounter) &&
         !(m == ApiMethod.getWaitingFile))) ∧
    (∀ (s : ClientState) (path method : String)
        (hs : List (String × String)),
      s.useSocketOnly = false → s.environment = "macos" →
      (dispatchRequest (createFetchFn s) path method hs).headers =
        ("Authorization",
          "Basic " ++ base64Encode (":" ++ strOrUndefined s.adapterPassword))
          :: ("Host", "local-tailscaled.sock") :: hs) ∧
    (∀ (s : ClientState) (path method : String)
        (hs : List (String × String)),
      (s.useSocketOnly = true ∨ s.environment ≠ "macos") →
      (dispatchRequest (createFetchFn s) path method hs).unixSocket =
          some s.socketPath ∧
        (dispatchRequest (createFetchFn s) path method hs).headers = hs) := by
  refine ⟨?_, ?_, ?_⟩
  · intro m; cases m <;> rfl
  · intro s path method hs h1 h2
    simp [createFetchFn, h1, h2, dispatchRequest]
  · intro s path method hs h
    rcases h with h | h
    · simp [createFetchFn, h, dispatchRequest]
    · simp [createFetchFn, h, dispatchRequest]

/-- C2 witness: in macOS TCP mode (port 12345, password `deadbeef`) a
dispatched status request carries exactly the Basic auth and Host
headers. -/
theorem claimC2_witness :
    (dispatchRequest (createFetchFn tcpClientState) "/localapi/v0/status"
        "GET" []).headers =
      [("Authorization", "Basic OmRlYWRiZWVm"),
       ("Host", "local-tailscaled.sock")] := by
  rw [claimC2_amended.2.1 tcpClientState "/localapi/v0/status" "GET" [] rfl rfl]
  decide

/-- C3: the claim states `isInRange "fd7a:115c:a1e0::1"` is truthy, with
membership decided against the IPv6 subnet.  The code cannot do this: it
calls `BlockList.check` without the `type` argument, which defaults to
`"ipv4"`, so the IPv6 string fails to parse as an IPv4 address and `check`
returns `false`; the classifier returns the falsy result for every IPv6
input and the `fd7a:115c:a1e0::/48` subnet added in the constructor is
unreachable. -/
theorem claimC3_eval :
    isInTailscaleIpRange "fd7a:115c:a1e0::1" = none ∧
    blockListCheckDefault "fd7a:115c:a1e0::1" = false :=
  ⟨rfl, rfl⟩

/-- C4: the startup probe's backoff schedule.  A failed attempt at
`retryCount = n` for `n = 0..4` schedules the next probe (as attempt
`n + 1`) after exactly `5000 * 1.5 ^ n` milliseconds — the sequence
`5000, 7500, 11250, 16875, 25312.5` — and a failure at `retryCount = 5`
terminates the process, scheduling nothing further. -/
theorem claimC4 :
    connectWithRetryStep false 0 = ProbeStep.scheduleRetry 1 5000 ∧
    connectWithRetryStep false 1 = ProbeStep.scheduleRetry 2 7500 ∧
    connectWithRetryStep false 2 = ProbeStep.scheduleRetry 3 11250 ∧
    connectWithRetryStep false 3 = ProbeStep.scheduleRetry 4 16875 ∧
    connectWithRetryStep false 4 = ProbeStep.scheduleRetry 5 (50625 / 2) ∧
    connectWithRetryStep false 5 = ProbeStep.terminate := by
  refine ⟨?_, ?_, ?_, ?_, ?_, rfl⟩ <;>
    norm_num [connectWithRetryStep, retryDelay, maxRetries]

/-- C7: `incrementCounter` validates the delta before any HTTP activity: a
negative delta throws `negative delta not allowed` immediately — the
returned action contains no request — while a non-negative delta issues the
metric-update POST to `/localapi/v0/upload-client-metrics`. -/
theorem claimC7 (baseUrl name : String) (delta : ℚ) :
    (delta < 0 → incrementCounter baseUrl name delta =
      CounterAction.throwError "negative delta not allowed") ∧
    (0 ≤ delta → incrementCounter baseUrl name delta =
      CounterAction.request (baseUrl ++ "/localapi/v0/upload-client-metrics")
        "POST" "application/json"
        [{ name := name, type := "counter", value := delta }]) := by
  constructor
  · intro h; simp [incrementCounter, h]
  · intro h; simp [incrementCounter, not_lt.2 h]

/-- C7 witness: delta `-1` throws, delta `2` issues the POST. -/
theorem claimC7_witness :
    incrementCounter "http://local-tailscaled.sock" "requests" (-1) =
      CounterAction.throwError "negative delta not allowed" ∧
    incrementCounter "http://local-tailscaled.sock" "requests" 2 =
      CounterAction.request
        "http://local-tailscaled.sock/localapi/v0/upload-client-metrics"
        "POST" "application/json"
        [{ name := "requests", type := "counter", value := 2 }] :=
  ⟨(claimC7 "http://local-tailscaled.sock" "requests" (-1)).1 (by norm_num),
   (claimC7 "http://local-tailscaled.sock" "requests" 2).2 (by norm_num)⟩

/-- C8: the classifier's concrete behaviour on the spec's three probes:
`"100.64.0.1"` is returned verbatim, `"8.8.8.8"` gives the falsy result,
and the IPv4-mapped `"::ffff:100.64.0.1"` is unwrapped by the regex and the
embedded IPv4 literal — not the original mapped string — is returned. -/
theorem claimC8 :
    isInTailscaleIpRange "100.64.0.1" = some "100.64.0.1" ∧
    isInTailscaleIpRange "8.8.8.8" = none ∧
    isInTailscaleIpRange "::ffff:100.64.0.1" = some "100.64.0.1" :=
  ⟨rfl, rfl, rfl⟩

/-- C9: whenever any container indicator holds — `/.dockerenv` exists, a
truthy `KUBERNETES_SERVICE_HOST`, or (on Linux) `/proc/1/cgroup` mentioning
`docker`/`kubepods`/`lxc` — environment detection returns `"container"`
regardless of the platform string; consequently construction succeeds with
no credentials populated (credential discovery never runs) and the dispatch
function is the Unix-socket one. -/
theorem claimC9 (e : Env) (options : TailscaleLocalApiOptions)
    (h : e.dockerenvExists = true ∨
      (∃ v, e.kubernetesServiceHost = some v ∧ v ≠ "") ∨
      (e.platform = "linux" ∧ ∃ c, e.cgroupContent = some c ∧
        (hasSubstring c "docker" || hasSubstring c "kubepods" ||
          hasSubstring c "lxc") = true)) :
    interrogateEnvironment e = "container" ∧
    ∃ s, construct e options = Except.ok s ∧ s.environment = "container" ∧
      s.adapterPort = none ∧ s.adapterPassword = none ∧
      createFetchFn s =
        Dispatcher.unixSocket s.socketPath "http://local-tailscaled.sock" := by
  have hc : isRunningInContainer e = true := by
    unfold isRunningInContainer
    rcases h with hd | ⟨v, hv, hne⟩ | ⟨hl, c, hcg, hsub⟩
    · simp [hd]
    · have hvE : v.isEmpty = false := by
        cases hq : v.isEmpty
        · rfl
        · exact absurd ((String.isEmpty_iff v).mp hq) hne
      cases hde : e.dockerenvExists <;> simp [hde, hv, hvE]
    · cases hde : e.dockerenvExists
      · cases hk : e.kubernetesServiceHost with
        | none => simp [hde, hk, hl, hcg, hsub]
        | some v => cases hq : v.isEmpty <;> simp [hde, hk, hq, hl, hcg, hsub]
      · simp [hde]
  have henv : interrogateEnvironment e = "container" := by
    simp [interrogateEnvironment, hc]
  refine ⟨henv,
    ⟨{ useSocketOnly := options.useSocketOnly.getD false,
       environment := "container",
       socketPath := options.socketPath.getD "/tmp/tailscaled.sock",
       adapterPort := none, adapterPassword := none }, ?_, rfl, rfl, rfl, ?_⟩⟩
  · simp [construct, henv]
  · simp [createFetchFn]

/-- C9 witness: a Docker container whose platform string is `darwin` is
classified as a container, constructs with no credentials and uses the
Unix-socket dispatcher. -/
theorem claimC9_witness :
    interrogateEnvironment darwinContainerEnv = "container" ∧
    ∃ s, construct darwinContainerEnv {} = Except.ok s ∧
      s.environment = "container" ∧ s.adapterPort = none ∧
      s.adapterPassword = none ∧
      createFetchFn s =
        Dispatcher.unixSocket s.socketPath "http://local-tailscaled.sock" :=
  claimC9 darwinContainerEnv {} (Or.inl rfl)

end TailscaleLocalApi
